import Mathlib

/-!
Verification of the `build.py` command dispatcher of the anapo repository.

The script is embedded shallowly: each operation is a pure function
producing the sequence of observable events (printed status lines and
external-process argument vectors) that the Python code would produce, and
a separate execution semantics (`exec`) models the synchronous
`subprocess.check_call` discipline: each invoked process yields an exit
code (supplied by an oracle), and the first non-zero exit aborts the run
with a non-zero status.
-/

namespace BuildPy

/-- An observable event of a dispatcher run: a printed status line, or a
synchronous invocation of an external process with the given argv list. -/
inductive Event where
  | msg (s : String)
  | proc (argv : List String)
deriving DecidableEq, Repr

/-- The parsed command-line arguments, mirroring the four argparse
destinations of `build.py`: `--ghc`, `--configure`, `--repl`, and the
optional positional `PROJECT`. -/
structure Args where
  ghc : Bool
  configure : Bool
  repl : Bool
  project : Option String
deriving DecidableEq, Repr

/-- The Python expression `"true" if ghcjs else "false"`. -/
def pyBool (ghcjs : Bool) : String := if ghcjs then "true" else "false"

/-- The Python expression `"using GHCjs." if ghcjs else "using GHC."`. -/
def toolchainSuffix (ghcjs : Bool) : String :=
  if ghcjs then "using GHCjs." else "using GHC."

/-- The argv list built by `run`: `nix-shell build.nix -A <project>.env
--arg ghcjs <bool> --run "cd <project> && runhaskell Setup.hs <cmd>"`. -/
def runArgv (project : String) (ghcjs : Bool) (cmd : String) : List String :=
  ["nix-shell", "build.nix", "-A", project ++ ".env",
   "--arg", "ghcjs", pyBool ghcjs,
   "--run", "cd " ++ project ++ " && runhaskell Setup.hs " ++ cmd]

/-- `run(project, ghcjs, cmd)`: one `subprocess.check_call` of `nix-shell`. -/
def run (project : String) (ghcjs : Bool) (cmd : String) : List Event :=
  [Event.proc (runArgv project ghcjs cmd)]

/-- The status line printed by `configure`. -/
def configureStatusLine (project : String) (ghcjs : Bool) : String :=
  "### Configuring project " ++ project ++ ", " ++ toolchainSuffix ghcjs

/-- The status line printed by `build` (the source duplicates the
`configure` wording verbatim). -/
def buildStatusLine (project : String) (ghcjs : Bool) : String :=
  "### Configuring project " ++ project ++ ", " ++ toolchainSuffix ghcjs

/-- The status line printed by `repl`. -/
def replStatusLine (project : String) (ghcjs : Bool) : String :=
  "### REPLing project " ++ project ++ ", " ++ toolchainSuffix ghcjs

/-- The status line printed by `build_nix`. -/
def buildNixStatusLine (project : String) (ghcjs : Bool) : String :=
  "### Building project " ++ project ++ " (nix), " ++ toolchainSuffix ghcjs

/-- `configure(project, ghcjs)`: print the status line, then run the
`configure` sub-command, with ` --ghcjs` appended when `ghcjs` holds. -/
def configure (project : String) (ghcjs : Bool) : List Event :=
  Event.msg (configureStatusLine project ghcjs) ::
    run project ghcjs ("configure" ++ (if ghcjs then " --ghcjs" else ""))

/-- `build(project, ghcjs)`: print the status line, then run the `build`
sub-command. -/
def build (project : String) (ghcjs : Bool) : List Event :=
  Event.msg (buildStatusLine project ghcjs) :: run project ghcjs "build"

/-- `repl(project, ghcjs)`: print the status line, then run the `repl`
sub-command with the two hard-coded compiler options. -/
def repl (project : String) (ghcjs : Bool) : List Event :=
  Event.msg (replStatusLine project ghcjs) ::
    run project ghcjs "repl --ghc-options=\x27-fobject-code -O0\x27"

/-- `build_nix(project, ghcjs)`: print the status line, then
`subprocess.check_call` of `nix-build build.nix -A <project> --arg ghcjs
<bool>`. -/
def build_nix (project : String) (ghcjs : Bool) : List Event :=
  [Event.msg (buildNixStatusLine project ghcjs),
   Event.proc ["nix-build", "build.nix", "-A", project,
               "--arg", "ghcjs", pyBool ghcjs]]

/-- The fixed project list of the no-argument mode. -/
def projects : List String := ["anapo", "anapo-test-app", "js-framework-benchmark"]

/-- The no-argument mode: `for ghcjs in [True, False]: for project in
projects: build_nix(project, ghcjs)`. -/
def buildAll : List Event :=
  ([true, false]).flatMap (fun ghcjs => projects.flatMap (fun p => build_nix p ghcjs))

/-- The top-level dispatch of `build.py` on parsed arguments. Python's
`if args.project:` is truthiness: both `None` and the empty string take
the build-all branch. -/
def dispatch (args : Args) : List Event :=
  match args.project with
  | some p =>
    if p.isEmpty then buildAll
    else if args.configure then configure p (!args.ghc)
    else if args.repl then configure p false ++ repl p false
    else configure p (!args.ghc) ++ build p (!args.ghc)
  | none => buildAll

/-- The process argument vectors of an event sequence, in order. -/
def procsOf : List Event → List (List String)
  | [] => []
  | Event.msg _ :: rest => procsOf rest
  | Event.proc a :: rest => a :: procsOf rest

/-- The printed status lines of an event sequence, in order. -/
def msgsOf : List Event → List String
  | [] => []
  | Event.msg s :: rest => s :: msgsOf rest
  | Event.proc _ :: rest => msgsOf rest

/-- Execute a planned event sequence under `subprocess.check_call`
semantics. `oracle k` is the exit code of the `k`-th process invocation
of the run (counting from `k0` at entry). A process is invoked, and if
its exit code is non-zero the run aborts there: the remaining plan is
dropped and the dispatcher terminates with status 1 (Python's uncaught
`CalledProcessError`). Returns the events that actually occurred and the
dispatcher's exit status. -/
def exec (oracle : Nat → Nat) : List Event → Nat → List Event × Nat
  | [], _ => ([], 0)
  | Event.msg s :: rest, k =>
    let r := exec oracle rest k
    (Event.msg s :: r.1, r.2)
  | Event.proc a :: rest, k =>
    if oracle k = 0 then
      let r := exec oracle rest (k + 1)
      (Event.proc a :: r.1, r.2)
    else ([Event.proc a], 1)

/-- Modelled from the spec: the argparse usage-error path. The argparse
library itself is not part of the repository source; the spec states that
giving both flags of the mutually exclusive group prints a usage message
and exits with a non-zero status before any process is invoked. -/
def usageText : String :=
  "usage: build.py [-h] [--ghc] [--configure | --repl] [PROJECT]"

/-- Modelled from the spec: the whole program. The argparse layer rejects
`--configure` together with `--repl` (usage message, exit status 2, no
process invoked); otherwise the dispatch runs under `exec`. -/
def main (args : Args) (oracle : Nat → Nat) : List Event × Nat :=
  if args.configure && args.repl then ([Event.msg usageText], 2)
  else exec oracle (dispatch args) 0

end BuildPy

namespace BuildPy

/-- C7: for `dispatch(project="anapo", ghc=false, no flags)` the trace is:
a status line mentioning "anapo" and "GHCjs", a nix-shell provision call
whose inner command is `configure --ghcjs`, the (duplicated) status line,
and a nix-shell provision call whose inner command is `build` with no
toolchain flag — both provision calls under the alternate toolchain
(`--arg ghcjs true`). -/
theorem claim_C7 :
    ("anapo".toList <:+: (configureStatusLine "anapo" true).toList) ∧
    ("GHCjs".toList <:+: (configureStatusLine "anapo" true).toList) ∧
    dispatch ⟨false, false, false, some "anapo"⟩ =
      [Event.msg "### Configuring project anapo, using GHCjs.",
       Event.proc ["nix-shell", "build.nix", "-A", "anapo.env",
                   "--arg", "ghcjs", "true",
                   "--run", "cd anapo && runhaskell Setup.hs configure --ghcjs"],
       Event.msg "### Configuring project anapo, using GHCjs.",
       Event.proc ["nix-shell", "build.nix", "-A", "anapo.env",
                   "--arg", "ghcjs", "true",
                   "--run", "cd anapo && runhaskell Setup.hs build"]] := by
  refine ⟨?_, ?_, ?_⟩ <;> decide

/-- C9: an empty-string positional project is treated exactly like an
absent one: whatever the flag values, the dispatch equals the no-project
dispatch, producing the six nix-build invocations and never the
single-project path. -/
theorem claim_C9 (g c r : Bool) :
    dispatch ⟨g, c, r, some ""⟩ = dispatch ⟨g, c, r, none⟩ ∧
    (procsOf (dispatch ⟨g, c, r, some ""⟩)).length = 6 ∧
    ∀ v ∈ procsOf (dispatch ⟨g, c, r, some ""⟩), v.head? = some "nix-build" := by
  have h : dispatch ⟨g, c, r, some ""⟩ = buildAll := rfl
  refine ⟨rfl, ?_, ?_⟩ <;> rw [h] <;> decide

/-- C1: with a (truthy) project and neither `--configure` nor `--repl`,
the dispatch is exactly the configure events followed by the build
events, and exactly two processes are invoked: the nix-shell provision
running `configure` (with ` --ghcjs` exactly when the alternate toolchain
is selected) and the nix-shell provision running `build`, both under the
same toolchain, namely GHCjs unless `--ghc` is set. -/
theorem claim_C1 (a : Args) (p : String)
    (hp : a.project = some p) (hne : p.isEmpty = false)
    (hc : a.configure = false) (hr : a.repl = false) :
    dispatch a = configure p (!a.ghc) ++ build p (!a.ghc) ∧
    procsOf (dispatch a) =
      [runArgv p (!a.ghc) ("configure" ++ (if !a.ghc then " --ghcjs" else "")),
       runArgv p (!a.ghc) "build"] := by
  have hd : dispatch a = configure p (!a.ghc) ++ build p (!a.ghc) := by
    simp [dispatch, hp, hne, hc, hr]
  refine ⟨hd, ?_⟩
  rw [hd]
  simp [configure, build, run, procsOf]

theorem claim_C1_witness :
    dispatch ⟨false, false, false, some "anapo"⟩ =
      configure "anapo" true ++ build "anapo" true ∧
    procsOf (dispatch ⟨false, false, false, some "anapo"⟩) =
      [runArgv "anapo" true ("configure" ++ " --ghcjs"),
       runArgv "anapo" true "build"] :=
  claim_C1 ⟨false, false, false, some "anapo"⟩ "anapo" rfl rfl rfl rfl

/-- C2: with a (truthy) project and `--repl` set, both actions use the
native toolchain (`ghcjs = false`) no matter what `--ghc` is, and the
repl invocation's sub-command carries the two hard-coded compiler
options. -/
theorem claim_C2 (a : Args) (p : String)
    (hp : a.project = some p) (hne : p.isEmpty = false)
    (hc : a.configure = false) (hr : a.repl = true) :
    dispatch a = configure p false ++ repl p false ∧
    procsOf (dispatch a) =
      [runArgv p false "configure",
       runArgv p false "repl --ghc-options=\x27-fobject-code -O0\x27"] := by
  have hd : dispatch a = configure p false ++ repl p false := by
    simp [dispatch, hp, hne, hc, hr]
  refine ⟨hd, ?_⟩
  rw [hd]
  simp [configure, repl, run, procsOf]

theorem claim_C2_witness :
    dispatch ⟨true, false, true, some "anapo"⟩ =
      configure "anapo" false ++ repl "anapo" false ∧
    procsOf (dispatch ⟨true, false, true, some "anapo"⟩) =
      [runArgv "anapo" false "configure",
       runArgv "anapo" false "repl --ghc-options=\x27-fobject-code -O0\x27"] :=
  claim_C2 ⟨true, false, true, some "anapo"⟩ "anapo" rfl rfl rfl rfl

/-- C3: with no project, the dispatch is the build-all sequence: exactly
the six nix-build invocations, alternate toolchain first, each project in
the fixed order, and no nix-shell invocation; the flags do not occur in
the hypotheses, so they have no effect in this mode. -/
theorem claim_C3 (a : Args) (hp : a.project = none) :
    dispatch a = buildAll ∧
    procsOf (dispatch a) =
      [["nix-build", "build.nix", "-A", "anapo", "--arg", "ghcjs", "true"],
       ["nix-build", "build.nix", "-A", "anapo-test-app", "--arg", "ghcjs", "true"],
       ["nix-build", "build.nix", "-A", "js-framework-benchmark", "--arg", "ghcjs", "true"],
       ["nix-build", "build.nix", "-A", "anapo", "--arg", "ghcjs", "false"],
       ["nix-build", "build.nix", "-A", "anapo-test-app", "--arg", "ghcjs", "false"],
       ["nix-build", "build.nix", "-A", "js-framework-benchmark", "--arg", "ghcjs", "false"]] ∧
    ∀ v ∈ procsOf (dispatch a), v.head? ≠ some "nix-shell" := by
  have hd : dispatch a = buildAll := by simp [dispatch, hp]
  refine ⟨hd, ?_, ?_⟩ <;> rw [hd] <;> decide

theorem claim_C3_witness :
    dispatch ⟨false, true, true, none⟩ = buildAll ∧
    procsOf (dispatch ⟨false, true, true, none⟩) =
      [["nix-build", "build.nix", "-A", "anapo", "--arg", "ghcjs", "true"],
       ["nix-build", "build.nix", "-A", "anapo-test-app", "--arg", "ghcjs", "true"],
       ["nix-build", "build.nix", "-A", "js-framework-benchmark", "--arg", "ghcjs", "true"],
       ["nix-build", "build.nix", "-A", "anapo", "--arg", "ghcjs", "false"],
       ["nix-build", "build.nix", "-A", "anapo-test-app", "--arg", "ghcjs", "false"],
       ["nix-build", "build.nix", "-A", "js-framework-benchmark", "--arg", "ghcjs", "false"]] ∧
    ∀ v ∈ procsOf (dispatch ⟨false, true, true, none⟩), v.head? ≠ some "nix-shell" :=
  claim_C3 ⟨false, true, true, none⟩ rfl

/-- Auxiliary: under `exec`, a non-zero exit code at invocation index
`k0 + j` bounds the number of invocations that occur at `j + 1`. -/
theorem exec_procs_length_le (oracle : Nat → Nat) (plan : List Event) :
    ∀ (k0 j : Nat), oracle (k0 + j) ≠ 0 →
      (procsOf (exec oracle plan k0).1).length ≤ j + 1 := by
  induction plan with
  | nil => intro k0 j _; simp [exec, procsOf]
  | cons e rest ih =>
    intro k0 j h
    cases e with
    | msg s => simpa [exec, procsOf] using ih k0 j h
    | proc a =>
      by_cases h0 : oracle k0 = 0
      · cases j with
        | zero => exact absurd (by simpa using h) (by simpa using h0)
        | succ j' =>
          have hrec := ih (k0 + 1) j'
            (by rw [Nat.add_assoc, Nat.add_comm 1 j']; exact h)
          have hx : exec oracle (Event.proc a :: rest) k0 =
              (Event.proc a :: (exec oracle rest (k0 + 1)).1,
               (exec oracle rest (k0 + 1)).2) := by
            simp [exec, h0]
          rw [hx]
          simp only [procsOf, List.length_cons]
          omega
      · have hx : exec oracle (Event.proc a :: rest) k0 = ([Event.proc a], 1) := by
          simp [exec, h0]
        rw [hx]
        simp [procsOf]

/-- C4: if the `k`-th external process invocation of a dispatcher run
exits non-zero, then at most `k + 1` invocations occur in that run — no
invocation after position `k` happens. -/
theorem claim_C4 (a : Args) (oracle : Nat → Nat) (k : Nat) (h : oracle k ≠ 0) :
    (procsOf (exec oracle (dispatch a) 0).1).length ≤ k + 1 :=
  exec_procs_length_le oracle (dispatch a) 0 k (by simpa using h)

theorem claim_C4_witness :
    (fun n => if n = 1 then 1 else 0) 1 ≠ 0 ∧
    (procsOf
      (exec (fun n => if n = 1 then 1 else 0)
        (dispatch ⟨false, false, false, none⟩) 0).1).length ≤ 2 :=
  ⟨by decide,
   claim_C4 ⟨false, false, false, none⟩ (fun n => if n = 1 then 1 else 0) 1 (by decide)⟩

/-- C5: when both `--configure` and `--repl` are set, the program prints
the usage message, exits with a non-zero status (2), and invokes no
external process. -/
theorem claim_C5 (a : Args) (oracle : Nat → Nat)
    (hc : a.configure = true) (hr : a.repl = true) :
    main a oracle = ([Event.msg usageText], 2) ∧
    (main a oracle).2 ≠ 0 ∧
    procsOf (main a oracle).1 = [] := by
  have hb : (a.configure && a.repl) = true := by simp [hc, hr]
  simp [main, hb, procsOf]

theorem claim_C5_witness :
    main ⟨false, true, true, some "anapo"⟩ (fun _ => 0) = ([Event.msg usageText], 2) ∧
    (main ⟨false, true, true, some "anapo"⟩ (fun _ => 0)).2 ≠ 0 ∧
    procsOf (main ⟨false, true, true, some "anapo"⟩ (fun _ => 0)).1 = [] :=
  claim_C5 ⟨false, true, true, some "anapo"⟩ (fun _ => 0) rfl rfl

/-- Auxiliary: under `exec`, the run's exit status is 0 exactly when
every invocation that occurred exited 0. -/
theorem exec_status_eq_zero (oracle : Nat → Nat) (plan : List Event) :
    ∀ k0, (exec oracle plan k0).2 = 0 ↔
      ∀ j < (procsOf (exec oracle plan k0).1).length, oracle (k0 + j) = 0 := by
  induction plan with
  | nil => intro k0; simp [exec, procsOf]
  | cons e rest ih =>
    intro k0
    cases e with
    | msg s => simpa [exec, procsOf] using ih k0
    | proc a =>
      by_cases h0 : oracle k0 = 0
      · have hx : exec oracle (Event.proc a :: rest) k0 =
            (Event.proc a :: (exec oracle rest (k0 + 1)).1,
             (exec oracle rest (k0 + 1)).2) := by
          simp [exec, h0]
        rw [hx]
        simp only [procsOf, List.length_cons]
        rw [ih (k0 + 1)]
        constructor
        · intro hall j hj
          cases j with
          | zero => simpa using h0
          | succ j' =>
            have := hall j' (by omega)
            rwa [Nat.add_assoc, Nat.add_comm 1 j'] at this
        · intro hall j hj
          have := hall (j + 1) (by omega)
          rwa [Nat.add_comm j 1, ← Nat.add_assoc] at this
      · have hx : exec oracle (Event.proc a :: rest) k0 = ([Event.proc a], 1) := by
          simp [exec, h0]
        rw [hx]
        simp only [procsOf, List.length_cons, List.length_nil]
        constructor
        · intro h1; exact absurd h1 (by decide)
        · intro hall
          exact absurd (by simpa using hall 0 (by omega)) h0

/-- C6: for any valid (parse-accepted) argument set, the program exits
with status 0 iff every external process it actually invoked exited 0;
the first non-zero child exit makes the program's status non-zero. -/
theorem claim_C6 (a : Args) (oracle : Nat → Nat)
    (h : ¬(a.configure = true ∧ a.repl = true)) :
    (main a oracle).2 = 0 ↔
      ∀ k < (procsOf (main a oracle).1).length, oracle k = 0 := by
  have hb : (a.configure && a.repl) = false := by
    cases hc : a.configure <;> cases hr : a.repl <;> simp_all
  simp only [main, hb, Bool.false_eq_true, if_false]
  simpa using exec_status_eq_zero oracle (dispatch a) 0

theorem claim_C6_witness :
    (main ⟨false, false, false, some "anapo"⟩ (fun _ => 0)).2 = 0 ↔
      ∀ k < (procsOf (main ⟨false, false, false, some "anapo"⟩ (fun _ => 0)).1).length,
        (fun _ : Nat => 0) k = 0 :=
  claim_C6 ⟨false, false, false, some "anapo"⟩ (fun _ => 0) (by simp)

/-- C10: the dispatch is a deterministic function of the four parsed
fields: argument records agreeing on all fields yield the same sequence
of printed status lines and the same sequence of process argv lists. -/
theorem claim_C10 (a b : Args) (h1 : a.ghc = b.ghc) (h2 : a.configure = b.configure)
    (h3 : a.repl = b.repl) (h4 : a.project = b.project) :
    msgsOf (dispatch a) = msgsOf (dispatch b) ∧
    procsOf (dispatch a) = procsOf (dispatch b) := by
  obtain ⟨g, c, r, pr⟩ := a
  obtain ⟨g2, c2, r2, pr2⟩ := b
  cases h1; cases h2; cases h3; cases h4
  exact ⟨rfl, rfl⟩

/-- Auxiliary: `String.append` concatenates the underlying character
lists. -/
theorem toList_append_eq (s t : String) : (s ++ t).toList = s.toList ++ t.toList := rfl

/-- C8: the build operation's status line is word-for-word the configure
operation's status line, beginning "### Configuring project" and not with
a "### Building" wording, while still identifying the project and the
toolchain (they are the remaining parts of the line). -/
theorem claim_C8 (p : String) (g : Bool) :
    buildStatusLine p g = configureStatusLine p g ∧
    ("### Configuring project".toList <+: (buildStatusLine p g).toList) ∧
    (buildStatusLine p g).toList.take 12 ≠ "### Building".toList ∧
    buildStatusLine p g = "### Configuring project " ++ p ++ ", " ++ toolchainSuffix g := by
  have htl : (buildStatusLine p g).toList =
      "### Configuring project ".toList ++
        (p.toList ++ (", ".toList ++ (toolchainSuffix g).toList)) := by
    simp [buildStatusLine, toList_append_eq, List.append_assoc]
  refine ⟨rfl, ?_, ?_, rfl⟩
  · rw [htl]
    exact List.IsPrefix.trans (by decide) (List.prefix_append _ _)
  · rw [htl, List.take_append_eq_append_take]
    have hlen : ("### Configuring project ".toList).length = 24 := by decide
    rw [hlen]
    simp only [Nat.reduceSub, List.take_zero, List.append_nil]
    decide

theorem claim_C10_witness :
    msgsOf (dispatch ⟨false, false, false, some "anapo"⟩) =
      msgsOf (dispatch ⟨false, false, false, some "anapo"⟩) ∧
    procsOf (dispatch ⟨false, false, false, some "anapo"⟩) =
      procsOf (dispatch ⟨false, false, false, some "anapo"⟩) :=
  claim_C10 ⟨false, false, false, some "anapo"⟩ ⟨false, false, false, some "anapo"⟩
    rfl rfl rfl rfl

end BuildPy
